import Mathlib

/-!
Shallow embedding of `src/blipt.py` (an interactive terminal scratchpad).

The in-memory note store is a list of strings with a capacity bound; the
history file is modelled by its textual content; terminal output, clipboard
writes and history-write failures are modelled as explicit events and
environment flags.  Python exceptions that the program does not catch
(e.g. `list.pop(0)` on an empty list) are modelled by `Option`: `none`
means the operation raises and the surrounding state is abandoned.
-/

namespace Blipt

/-- ASCII fragment of Python's whitespace set used by `str.strip` /
`str.split(None, ...)`. -/
def isPySpace (c : Char) : Bool :=
  c = ' ' || c = '\t' || c = '\n' || c = '\r' || c = '\x0b' || c = '\x0c'

/-- Python `str.strip()`: drop leading and trailing whitespace. -/
def pyStrip (s : String) : String :=
  ⟨((s.data.dropWhile isPySpace).reverse.dropWhile isPySpace).reverse⟩

/-- Python `str.lower()` (ASCII fragment, via `Char.toLower`). -/
def pyLower (s : String) : String :=
  ⟨s.data.map Char.toLower⟩

/-- Does `l` start with the characters `p`? (Python `str.startswith`). -/
def charsStartWith : List Char → List Char → Bool
  | _, [] => true
  | [], _ :: _ => false
  | c :: cs, p :: ps => c = p && charsStartWith cs ps

/-- Does `l` contain `p` as a contiguous run? (Python `needle in hay`). -/
def charsContain : List Char → List Char → Bool
  | hay, needle =>
    if charsStartWith hay needle then true
    else
      match hay with
      | [] => false
      | _ :: hs => charsContain hs needle

/-- Python substring test `needle in hay`. -/
def strContains (hay needle : String) : Bool :=
  charsContain hay.data needle.data

/-- Python `s.startswith(p)`. -/
def strStartsWith (s p : String) : Bool :=
  charsStartWith s.data p.data

/-- Python slicing `s[n:]` (by characters). -/
def pyDrop (s : String) (n : Nat) : String :=
  ⟨s.data.drop n⟩

def isAsciiDigit (c : Char) : Bool :=
  '0' ≤ c && c ≤ '9'

/-- Python `str.isdigit()` (ASCII fragment: nonempty and all digits). -/
def pyIsDigit (s : String) : Bool :=
  !s.data.isEmpty && s.data.all isAsciiDigit

/-- Python `int(s)` on a digit string. -/
def parseNat (s : String) : Nat :=
  s.data.foldl (fun a c => a * 10 + (c.toNat - '0'.toNat)) 0

/-- Zero-pad to two digits, as `strftime` does for `%m %d %H %M %S`. -/
def pad2 (n : Nat) : String :=
  if n < 10 then "0" ++ Nat.repr n else Nat.repr n

/-- Zero-pad to four digits, as `strftime` does for `%Y`. -/
def pad4 (n : Nat) : String :=
  if n < 10 then "000" ++ Nat.repr n
  else if n < 100 then "00" ++ Nat.repr n
  else if n < 1000 then "0" ++ Nat.repr n
  else Nat.repr n

/-- The wall-clock instant `datetime.now()` observed during an operation. -/
structure Timestamp where
  year : Nat
  month : Nat
  day : Nat
  hour : Nat
  minute : Nat
  second : Nat
  deriving Repr, DecidableEq

/-- `strftime("%Y-%m-%d %H:%M:%S")`. -/
def Timestamp.format (t : Timestamp) : String :=
  pad4 t.year ++ "-" ++ pad2 t.month ++ "-" ++ pad2 t.day ++ " " ++
    pad2 t.hour ++ ":" ++ pad2 t.minute ++ ":" ++ pad2 t.second

/-- State of a `Scratchpad` object together with the content of its history
file (`self.notes`, `self.max_notes`, and the file named by
`self.history_file`). -/
structure Scratchpad where
  notes : List String
  maxNotes : Nat
  history : String
  deriving Repr, DecidableEq

/-- External circumstances of one dispatched command: whether appending to
the history file succeeds, whether `pyperclip` is importable
(`HAS_CLIPBOARD`), whether `pyperclip.copy` succeeds, and the current
wall-clock time. -/
structure Env where
  histOk : Bool
  clipAvail : Bool
  clipOk : Bool
  now : Timestamp
  deriving Repr, DecidableEq

/-- Observable effects of a handler: `show_status` / `show_error`
messages, a successful clipboard write, the printed plain-text fallback
`Text content: ...`, the search-results screen, and the help screen. -/
inductive Ev where
  | status : String → Ev
  | error : String → Ev
  | clipSet : String → Ev
  | textFallback : String → Ev
  | searchResults : String → List (Nat × String) → Ev
  | helpShown : Ev
  deriving Repr, DecidableEq

/-- `Scratchpad.init_history`: create the file with a header if absent,
leave any existing content untouched. `none` models an absent file. -/
def init_history (existing : Option String) : String :=
  match existing with
  | none => "# Scratchpad History\n\n"
  | some content => content

/-- The line appended to the history file for one accepted note. -/
def history_line (now : Timestamp) (text : String) : String :=
  "- [" ++ now.format ++ "] " ++ text ++ "\n"

/-- `Scratchpad.log_to_history`: append one timestamped line; an `IOError`
is caught and reported, leaving the file as it was. -/
def log_to_history (env : Env) (s : Scratchpad) (text : String) :
    Scratchpad × List Ev :=
  if env.histOk then
    ({ s with history := s.history ++ history_line env.now text }, [])
  else
    (s, [Ev.error "Failed to write to history"])

/-- `Scratchpad.handle_add`.  `none` models the uncaught `IndexError`
raised by `self.notes.pop(0)` on an empty list (reachable only when
`max_notes = 0`). -/
def handle_add (env : Env) (s : Scratchpad) (text : String) :
    Option (Scratchpad × List Ev) :=
  if text = "" then
    some (s, [Ev.error "Cannot add empty text"])
  else if s.maxNotes ≤ s.notes.length then
    match s.notes with
    | [] => none
    | _ :: rest =>
      let evict := Ev.status ("Removed oldest note (limit: " ++ Nat.repr s.maxNotes ++ ")")
      let s1 : Scratchpad := { s with notes := rest ++ [text] }
      let h := log_to_history env s1 text
      some (h.1, evict :: (h.2 ++ [Ev.status ("Added note #" ++ Nat.repr s1.notes.length)]))
  else
    let s1 : Scratchpad := { s with notes := s.notes ++ [text] }
    let h := log_to_history env s1 text
    some (h.1, h.2 ++ [Ev.status ("Added note #" ++ Nat.repr s1.notes.length)])

/-- `Scratchpad.safe_clipboard_copy`: returns whether the clipboard write
succeeded; on unavailability or failure the text is printed verbatim as a
fallback. -/
def safe_clipboard_copy (env : Env) (text : String) : Bool × List Ev :=
  if env.clipAvail = false then
    (false, [Ev.error "Clipboard not available - install pyperclip", Ev.textFallback text])
  else if env.clipOk then
    (true, [Ev.clipSet text])
  else
    (false, [Ev.error "Copy failed", Ev.textFallback text])

/-- `Scratchpad.handle_copy`. -/
def handle_copy (env : Env) (s : Scratchpad) (index : Nat) :
    Scratchpad × List Ev :=
  if index < 1 ∨ s.notes.length < index then
    (s, [Ev.error "Invalid note number"])
  else
    let note_text := s.notes.getD (index - 1) ""
    let r := safe_clipboard_copy env note_text
    (s, r.2 ++ if r.1 then [Ev.status ("Copied note #" ++ Nat.repr index)] else [])

/-- The numbered lines `f"{i+1}. {note}"` produced by `handle_copy_all`,
with `i` the running `enumerate` counter. -/
def numbered_lines : Nat → List String → List String
  | _, [] => []
  | i, note :: rest => (Nat.repr (i + 1) ++ ". " ++ note) :: numbered_lines (i + 1) rest

/-- The text `"\n".join(f"{i+1}. {note}" ...)` built by `handle_copy_all`. -/
def copy_all_text (notes : List String) : String :=
  String.intercalate "\n" (numbered_lines 0 notes)

/-- `Scratchpad.handle_copy_all`. -/
def handle_copy_all (env : Env) (s : Scratchpad) : Scratchpad × List Ev :=
  if s.notes = [] then
    (s, [Ev.error "Nothing to copy"])
  else
    let all_text := copy_all_text s.notes
    let r := safe_clipboard_copy env all_text
    (s, r.2 ++ if r.1 then [Ev.status ("Copied all " ++ Nat.repr s.notes.length ++ " notes")] else [])

/-- The truncated preview of a deleted note (`deleted_note[:30] + "..."`
when longer than 30 characters). -/
def delete_preview (t : String) : String :=
  if 30 < t.length then t.take 30 ++ "..." else t

/-- `Scratchpad.handle_delete` (`self.notes.pop(index - 1)` modelled as
`take ++ drop`). -/
def handle_delete (s : Scratchpad) (index : Nat) : Scratchpad × List Ev :=
  if index < 1 ∨ s.notes.length < index then
    (s, [Ev.error "Invalid note number"])
  else
    let deleted := s.notes.getD (index - 1) ""
    let rest := s.notes.take (index - 1) ++ s.notes.drop index
    ({ s with notes := rest },
     [Ev.status ("Deleted: \x27" ++ delete_preview deleted ++ "\x27")])

/-- `Scratchpad.handle_delete_all`. -/
def handle_delete_all (s : Scratchpad) : Scratchpad × List Ev :=
  if s.notes = [] then
    (s, [Ev.error "Nothing to delete"])
  else
    ({ s with notes := [] },
     [Ev.status ("Deleted all " ++ Nat.repr s.notes.length ++ " notes")])

/-- The match-collecting loop of `handle_search`: `for i, note in
enumerate(self.notes): if query.lower() in note.lower():
matches.append((i + 1, note))`, with `i` starting at the given counter. -/
def searchFrom (query : String) : Nat → List String → List (Nat × String)
  | _, [] => []
  | i, note :: rest =>
    if strContains (pyLower note) (pyLower query) then
      (i + 1, note) :: searchFrom query (i + 1) rest
    else
      searchFrom query (i + 1) rest

/-- All search matches, tagged with their current 1-based index. -/
def searchMatches (notes : List String) (query : String) : List (Nat × String) :=
  searchFrom query 0 notes

/-- The three distinct branches of `handle_search`: empty query, no
matches, and a nonempty result list. -/
inductive SearchOutcome where
  | emptyQuery : SearchOutcome
  | noMatches : String → SearchOutcome
  | found : String → List (Nat × String) → SearchOutcome
  deriving Repr, DecidableEq

/-- Branch selection of `Scratchpad.handle_search`. -/
def search_outcome (notes : List String) (query : String) : SearchOutcome :=
  if query = "" then SearchOutcome.emptyQuery
  else
    let ms := searchMatches notes query
    if ms = [] then SearchOutcome.noMatches query
    else SearchOutcome.found query ms

/-- `Scratchpad.handle_search` as a state transformer with events. -/
def handle_search (s : Scratchpad) (query : String) : Scratchpad × List Ev :=
  match search_outcome s.notes query with
  | SearchOutcome.emptyQuery => (s, [Ev.error "Please provide a search term"])
  | SearchOutcome.noMatches q =>
      (s, [Ev.error ("No notes found containing \x27" ++ q ++ "\x27")])
  | SearchOutcome.found q ms => (s, [Ev.searchResults q ms])

/-- Python `s.split(None, 1)`: skip leading whitespace, take the first
whitespace-free token, then the remainder with its leading whitespace
removed. -/
def pySplit1 (l : List Char) : List (List Char) :=
  if (l.dropWhile isPySpace) = [] then []
  else if ((l.dropWhile isPySpace).dropWhile (fun c => !isPySpace c)).dropWhile isPySpace = [] then
    [(l.dropWhile isPySpace).takeWhile (fun c => !isPySpace c)]
  else
    [(l.dropWhile isPySpace).takeWhile (fun c => !isPySpace c),
     ((l.dropWhile isPySpace).dropWhile (fun c => !isPySpace c)).dropWhile isPySpace]

/-- `Scratchpad.parse_command`: lowercased first token plus raw remainder
(`none` models the `(None, [])` result for empty input). -/
def parse_command (command : String) : Option (String × String) :=
  if command = "" then none
  else
    match pySplit1 command.data with
    | [] => none
    | [tok] => some (pyLower ⟨tok⟩, "")
    | tok :: rest :: _ => some (pyLower ⟨tok⟩, ⟨rest⟩)

/-- The `copy <arg>` arm of the dispatch loop (`run`, lines 271-276):
validate the argument with `isdigit` before calling `handle_copy`. -/
def copy_arm (env : Env) (s : Scratchpad) (arg0 : String) :
    Scratchpad × List Ev :=
  let arg := pyStrip arg0
  if pyIsDigit arg then handle_copy env s (parseNat arg)
  else (s, [Ev.error "Usage: copy <number>"])

/-- The `delete <arg>` arm of the dispatch loop (`run`, lines 277-282). -/
def delete_arm (s : Scratchpad) (arg0 : String) : Scratchpad × List Ev :=
  let arg := pyStrip arg0
  if pyIsDigit arg then handle_delete s (parseNat arg)
  else (s, [Ev.error "Usage: delete <number>"])

/-- Result of one iteration of the session loop: continue with a new
state, or leave the loop. -/
inductive LoopResult where
  | next : Scratchpad → List Ev → LoopResult
  | quit : Scratchpad → LoopResult
  deriving Repr, DecidableEq

/-- The `elif` dispatch chain of `Scratchpad.run` applied to one
already-stripped command line. -/
def stepCommand (env : Env) (s : Scratchpad) (command : String) :
    Option LoopResult :=
  if pyLower command = "exit" then some (LoopResult.quit s)
  else if pyLower command = "copy all" then
    let r := handle_copy_all env s
    some (LoopResult.next r.1 r.2)
  else if pyLower command = "delete all" then
    let r := handle_delete_all s
    some (LoopResult.next r.1 r.2)
  else if strStartsWith command "add " then
    match handle_add env s (pyStrip (pyDrop command 4)) with
    | none => none
    | some (s1, evs) => some (LoopResult.next s1 evs)
  else if strStartsWith command "copy " then
    let r := copy_arm env s (pyDrop command 5)
    some (LoopResult.next r.1 r.2)
  else if strStartsWith command "delete " then
    let r := delete_arm s (pyDrop command 7)
    some (LoopResult.next r.1 r.2)
  else if strStartsWith command "search " then
    let r := handle_search s (pyStrip (pyDrop command 7))
    some (LoopResult.next r.1 r.2)
  else if pyLower command = "help" || pyLower command = "?" then
    some (LoopResult.next s [Ev.helpShown])
  else if command ≠ "" then
    some (LoopResult.next s [Ev.error "Unknown command. Type \x27help\x27 for available commands"])
  else
    some (LoopResult.next s [])

/-- One session-loop iteration on a raw input line (`get_user_input`
strips the line before dispatch). -/
def step_line (env : Env) (s : Scratchpad) (raw : String) : Option LoopResult :=
  stepCommand env s (pyStrip raw)

/-- The spec-level `add(text)` operation: the trim applied by the `add`
dispatch arm (`text = command[4:].strip()`) followed by `handle_add`. -/
def add_op (env : Env) (s : Scratchpad) (rawText : String) :
    Option (Scratchpad × List Ev) :=
  handle_add env s (pyStrip rawText)

/-- A sequence of `handle_add` calls, accumulating events; `none` as soon
as one call raises. -/
def add_seq (env : Env) (s : Scratchpad) : List String → Option (Scratchpad × List Ev)
  | [] => some (s, [])
  | t :: ts =>
    (handle_add env s t).bind fun p =>
      (add_seq env p.1 ts).map fun q => (q.1, p.2 ++ q.2)

/-- The six store operations reachable from the dispatch loop. -/
inductive Op where
  | add : String → Op
  | copy : Nat → Op
  | copyAll : Op
  | delete : Nat → Op
  | deleteAll : Op
  | search : String → Op
  deriving Repr, DecidableEq

/-- Apply one store operation (total handlers wrapped in `some`). -/
def apply_op (env : Env) (s : Scratchpad) : Op → Option (Scratchpad × List Ev)
  | Op.add t => handle_add env s t
  | Op.copy n => some (handle_copy env s n)
  | Op.copyAll => some (handle_copy_all env s)
  | Op.delete n => some (handle_delete s n)
  | Op.deleteAll => some (handle_delete_all s)
  | Op.search q => some (handle_search s q)

/-- Recognise the eviction notice `Removed oldest note (limit: N)`. -/
def is_evict (e : Ev) : Bool :=
  match e with
  | Ev.status m => charsStartWith m.data "Removed oldest note".data
  | _ => false

/-- A concrete timestamp used in concrete executions. -/
def ts0 : Timestamp := ⟨2024, 1, 2, 3, 4, 5⟩

/-- A concrete fully-functional environment. -/
def env0 : Env := ⟨true, true, true, ts0⟩

/-- A concrete environment whose history write fails. -/
def envHistFail : Env := ⟨false, true, true, ts0⟩

/-- Empty scratchpad with capacity 2 (the eviction scenario). -/
def padCap2 : Scratchpad := ⟨[], 2, ""⟩

/-- Empty scratchpad with the default capacity 100. -/
def pad100 : Scratchpad := ⟨[], 100, ""⟩

/-- Scratchpad holding one note `"a"`. -/
def padA : Scratchpad := ⟨["a"], 100, ""⟩

/-! ### Helper lemmas -/

theorem log_to_history_notes (env : Env) (s : Scratchpad) (t : String) :
    (log_to_history env s t).1.notes = s.notes := by
  unfold log_to_history
  split <;> rfl

theorem log_to_history_maxNotes (env : Env) (s : Scratchpad) (t : String) :
    (log_to_history env s t).1.maxNotes = s.maxNotes := by
  unfold log_to_history
  split <;> rfl

theorem log_to_history_of_ok (env : Env) (s : Scratchpad) (t : String)
    (h : env.histOk = true) :
    log_to_history env s t =
      ({ s with history := s.history ++ history_line env.now t }, []) := by
  unfold log_to_history
  rw [if_pos h]

theorem log_to_history_of_fail (env : Env) (s : Scratchpad) (t : String)
    (h : env.histOk = false) :
    log_to_history env s t = (s, [Ev.error "Failed to write to history"]) := by
  unfold log_to_history
  rw [if_neg (by simp [h])]

theorem handle_add_inv (env : Env) (s : Scratchpad) (text : String)
    (s' : Scratchpad) (evs : List Ev)
    (h : handle_add env s text = some (s', evs))
    (hb : s.notes.length ≤ s.maxNotes) :
    s'.maxNotes = s.maxNotes ∧ s'.notes.length ≤ s.maxNotes := by
  unfold handle_add at h
  split at h
  · simp only [Option.some.injEq, Prod.mk.injEq] at h
    obtain ⟨h1, _⟩ := h
    subst h1
    exact ⟨rfl, hb⟩
  · split at h
    · split at h
      · exact absurd h (by simp)
      · rename_i hfull _ a rest heq
        simp only [Option.some.injEq, Prod.mk.injEq] at h
        obtain ⟨h1, _⟩ := h
        subst h1
        refine ⟨log_to_history_maxNotes _ _ _, ?_⟩
        rw [log_to_history_notes]
        simp only [List.length_append, List.length_cons, List.length_nil]
        have : s.notes.length = rest.length + 1 := by rw [heq]; rfl
        omega
    · rename_i hfull
      simp only [Option.some.injEq, Prod.mk.injEq] at h
      obtain ⟨h1, _⟩ := h
      subst h1
      refine ⟨log_to_history_maxNotes _ _ _, ?_⟩
      rw [log_to_history_notes]
      simp only [List.length_append, List.length_cons, List.length_nil]
      omega

theorem add_seq_inv (env : Env) :
    ∀ (texts : List String) (s s' : Scratchpad) (evs : List Ev),
      s.notes.length ≤ s.maxNotes →
      add_seq env s texts = some (s', evs) →
      s'.maxNotes = s.maxNotes ∧ s'.notes.length ≤ s.maxNotes := by
  intro texts
  induction texts with
  | nil =>
    intro s s' evs hb h
    simp only [add_seq, Option.some.injEq, Prod.mk.injEq] at h
    obtain ⟨h1, _⟩ := h
    subst h1
    exact ⟨rfl, hb⟩
  | cons t ts ih =>
    intro s s' evs hb h
    unfold add_seq at h
    cases ha : handle_add env s t with
    | none => rw [ha] at h; exact absurd h (by simp)
    | some p =>
      obtain ⟨s1, evs1⟩ := p
      rw [ha] at h
      simp only [Option.some_bind] at h
      cases hs : add_seq env s1 ts with
      | none => rw [hs] at h; exact absurd h (by simp)
      | some q =>
        obtain ⟨s2, evs2⟩ := q
        rw [hs] at h
        simp only [Option.map_some', Option.some.injEq, Prod.mk.injEq] at h
        obtain ⟨h1, _⟩ := h
        subst h1
        obtain ⟨hm1, hl1⟩ := handle_add_inv env s t s1 evs1 ha hb
        obtain ⟨hm2, hl2⟩ := ih s1 s2 evs2 (hm1 ▸ hl1) hs
        exact ⟨hm2.trans hm1, hm1 ▸ hl2⟩

theorem charsStartWith_of_startsWith (p : List Char) :
    ∀ (l r : List Char), charsStartWith l p = true →
      charsStartWith (l ++ r) p = true := by
  induction p with
  | nil => intro l r _; simp [charsStartWith]
  | cons q qs ih =>
    intro l r h
    cases l with
    | nil => exact absurd h (by simp [charsStartWith])
    | cons c cs =>
      simp only [charsStartWith, Bool.and_eq_true] at h ⊢
      exact ⟨h.1, ih cs r h.2⟩

theorem is_evict_notice (n : Nat) :
    is_evict (Ev.status ("Removed oldest note (limit: " ++ Nat.repr n ++ ")")) = true := by
  show charsStartWith
      (("Removed oldest note (limit: ".data ++ (Nat.repr n).data) ++ ")".data)
      "Removed oldest note".data = true
  rw [List.append_assoc]
  exact charsStartWith_of_startsWith _ _ _ (by decide)

theorem is_evict_added (n : Nat) :
    is_evict (Ev.status ("Added note #" ++ Nat.repr n)) = false := by
  show charsStartWith ('A' :: ("dded note #".data ++ (Nat.repr n).data))
      ('R' :: "emoved oldest note".data) = false
  simp [charsStartWith]

theorem mem_searchFrom (q : String) :
    ∀ (l : List String) (i j : Nat) (n : String),
      (j, n) ∈ searchFrom q i l ↔
        ∃ k, l[k]? = some n ∧ j = i + k + 1 ∧
          strContains (pyLower n) (pyLower q) = true := by
  intro l
  induction l with
  | nil =>
    intro i j n
    simp [searchFrom]
  | cons a l ih =>
    intro i j n
    constructor
    · intro hm
      unfold searchFrom at hm
      by_cases hc : strContains (pyLower a) (pyLower q) = true
      · rw [if_pos hc] at hm
        rcases List.mem_cons.mp hm with he | ht
        · obtain ⟨hj, hn⟩ := Prod.mk.injEq .. ▸ he
          subst hn
          exact ⟨0, by simp, by omega, hc⟩
        · rcases (ih (i + 1) j n).mp ht with ⟨k, hk1, hk2, hk3⟩
          exact ⟨k + 1, by simpa using hk1, by omega, hk3⟩
      · rw [if_neg hc] at hm
        rcases (ih (i + 1) j n).mp hm with ⟨k, hk1, hk2, hk3⟩
        exact ⟨k + 1, by simpa using hk1, by omega, hk3⟩
    · rintro ⟨k, hk1, hk2, hk3⟩
      unfold searchFrom
      cases k with
      | zero =>
        simp only [List.getElem?_cons_zero, Option.some.injEq] at hk1
        subst hk1
        rw [if_pos hk3]
        have : j = i + 1 := by omega
        subst this
        exact List.mem_cons_self _ _
      | succ k =>
        have hmem := (ih (i + 1) j n).mpr
          ⟨k, by simpa using hk1, by omega, hk3⟩
        by_cases hc : strContains (pyLower a) (pyLower q) = true
        · rw [if_pos hc]; exact List.mem_cons_of_mem _ hmem
        · rw [if_neg hc]; exact hmem

theorem searchFrom_fst_lt (q : String) (l : List String) (i : Nat)
    (p : Nat × String) (hp : p ∈ searchFrom q i l) : i < p.1 := by
  obtain ⟨j, n⟩ := p
  rcases (mem_searchFrom q l i j n).mp hp with ⟨k, _, hk, _⟩
  simp only
  omega

theorem searchFrom_pairwise (q : String) :
    ∀ (l : List String) (i : Nat),
      (searchFrom q i l).Pairwise (fun a b => a.1 < b.1) := by
  intro l
  induction l with
  | nil => intro i; simp [searchFrom]
  | cons a l ih =>
    intro i
    unfold searchFrom
    by_cases hc : strContains (pyLower a) (pyLower q) = true
    · rw [if_pos hc]
      refine List.Pairwise.cons ?_ (ih (i + 1))
      intro b hb
      have := searchFrom_fst_lt q l (i + 1) b hb
      simp only
      omega
    · rw [if_neg hc]
      exact ih (i + 1)

theorem takeWhile_append_stop {p : Char → Bool} :
    ∀ (l1 : List Char) {c : Char} (l2 : List Char),
      (∀ x ∈ l1, p x = true) → p c = false →
      (l1 ++ c :: l2).takeWhile p = l1 := by
  intro l1
  induction l1 with
  | nil =>
    intro c l2 _ hc
    simp [List.takeWhile_cons, hc]
  | cons a l ih =>
    intro c l2 h1 hc
    have ha : p a = true := h1 a (List.mem_cons_self a l)
    simp only [List.cons_append, List.takeWhile_cons, ha, if_true]
    rw [ih l2 (fun x hx => h1 x (List.mem_cons_of_mem a hx)) hc]

theorem dropWhile_append_stop {p : Char → Bool} :
    ∀ (l1 : List Char) {c : Char} (l2 : List Char),
      (∀ x ∈ l1, p x = true) → p c = false →
      (l1 ++ c :: l2).dropWhile p = c :: l2 := by
  intro l1
  induction l1 with
  | nil =>
    intro c l2 _ hc
    simp [List.dropWhile_cons, hc]
  | cons a l ih =>
    intro c l2 h1 hc
    have ha : p a = true := h1 a (List.mem_cons_self a l)
    simp only [List.cons_append, List.dropWhile_cons, ha, if_true]
    exact ih l2 (fun x hx => h1 x (List.mem_cons_of_mem a hx)) hc

theorem dropWhile_cons_false {p : Char → Bool} {c : Char} {l : List Char}
    (h : p c = false) : (c :: l).dropWhile p = c :: l := by
  simp [List.dropWhile_cons, h]

theorem is_evict_error (m : String) : is_evict (Ev.error m) = false := rfl

/-! ### Claim theorems -/

/-- C1: (1) every sequence of adds preserves the store bound
`len(notes) ≤ max_notes` (and preserves the bound itself); (2) an
accepted add on a store holding exactly `max_notes` notes (capacity
positive, so a note at position 0 exists) evicts the note at position 0
and appends the new note at the end, emitting exactly one eviction
notice; (3) with `max_notes = 2`, adds of "x", "y", "z" end with the
store `["y", "z"]` and exactly one eviction notice over the whole
sequence. -/
theorem C1_bounded_fifo :
    (∀ (env : Env) (texts : List String) (s s' : Scratchpad) (evs : List Ev),
        s.notes.length ≤ s.maxNotes →
        add_seq env s texts = some (s', evs) →
        s'.maxNotes = s.maxNotes ∧ s'.notes.length ≤ s.maxNotes) ∧
    (∀ (env : Env) (s : Scratchpad) (text : String) (s' : Scratchpad) (evs : List Ev),
        text ≠ "" → s.notes.length = s.maxNotes → 0 < s.maxNotes →
        handle_add env s text = some (s', evs) →
        s'.notes = s.notes.tail ++ [text] ∧ (evs.filter is_evict).length = 1) ∧
    (∃ (s' : Scratchpad) (evs : List Ev),
        add_seq env0 padCap2 ["x", "y", "z"] = some (s', evs) ∧
        s'.notes = ["y", "z"] ∧ (evs.filter is_evict).length = 1) := by
  refine ⟨fun env texts s s' evs hb h => add_seq_inv env texts s s' evs hb h, ?_, ?_⟩
  · intro env s text s' evs ht hfull hpos h
    unfold handle_add at h
    rw [if_neg ht, if_pos (le_of_eq hfull.symm)] at h
    split at h
    · exact absurd h (by simp)
    · rename_i a rest heq
      simp only [Option.some.injEq, Prod.mk.injEq] at h
      obtain ⟨h1, h2⟩ := h
      subst h1
      constructor
      · rw [log_to_history_notes, heq]
        rfl
      · subst h2
        cases hhist : env.histOk
        · rw [log_to_history_of_fail _ _ _ hhist]
          simp [List.filter_cons, is_evict_notice, is_evict_added, is_evict_error]
        · rw [log_to_history_of_ok _ _ _ hhist]
          simp [List.filter_cons, is_evict_notice, is_evict_added, is_evict_error]
  · exact ⟨_, _, rfl, by decide, by decide⟩

theorem C1_bounded_fifo_witness :
    ((⟨["x"], 2, "- [2024-01-02 03:04:05] x\n"⟩ : Scratchpad).maxNotes = padCap2.maxNotes ∧
      (⟨["x"], 2, "- [2024-01-02 03:04:05] x\n"⟩ : Scratchpad).notes.length ≤ padCap2.maxNotes) ∧
    ((⟨["b", "c"], 2, ""⟩ : Scratchpad).notes = (["a", "b"] : List String).tail ++ ["c"] ∧
      (([Ev.status "Removed oldest note (limit: 2)",
         Ev.error "Failed to write to history",
         Ev.status "Added note #2"].filter is_evict).length = 1)) :=
  ⟨C1_bounded_fifo.1 env0 ["x"] padCap2 ⟨["x"], 2, "- [2024-01-02 03:04:05] x\n"⟩
      [Ev.status "Added note #1"] (by decide) (by decide),
   C1_bounded_fifo.2.1 envHistFail ⟨["a", "b"], 2, ""⟩ "c" ⟨["b", "c"], 2, ""⟩
      [Ev.status "Removed oldest note (limit: 2)",
       Ev.error "Failed to write to history",
       Ev.status "Added note #2"] (by decide) (by decide) (by decide) (by decide)⟩

/-- C2: for every valid 1-based index `i`, delete removes exactly the
note at position `i - 1`: earlier notes keep their display positions,
every later note shifts down by one, the removed text (as its preview)
is surfaced in the status message, and when `i` was the largest valid
index a subsequent `copy(i)` on the resulting store fails with the
index-range error. -/
theorem C2_delete_shifts (s : Scratchpad) (i : Nat)
    (h1 : 1 ≤ i) (h2 : i ≤ s.notes.length) :
    handle_delete s i =
      ({ s with notes := s.notes.take (i - 1) ++ s.notes.drop i },
       [Ev.status ("Deleted: \x27" ++ delete_preview (s.notes.getD (i - 1) "") ++ "\x27")]) ∧
    s.notes[i - 1]? = some (s.notes.getD (i - 1) "") ∧
    (s.notes.take (i - 1) ++ s.notes.drop i).length = s.notes.length - 1 ∧
    (∀ j, j < i - 1 → (s.notes.take (i - 1) ++ s.notes.drop i)[j]? = s.notes[j]?) ∧
    (∀ j, i - 1 ≤ j → (s.notes.take (i - 1) ++ s.notes.drop i)[j]? = s.notes[j + 1]?) ∧
    (i = s.notes.length → ∀ env,
      handle_copy env { s with notes := s.notes.take (i - 1) ++ s.notes.drop i } i =
        ({ s with notes := s.notes.take (i - 1) ++ s.notes.drop i },
         [Ev.error "Invalid note number"])) := by
  have hb : i - 1 < s.notes.length := by omega
  refine ⟨?_, ?_, ?_, ?_, ?_, ?_⟩
  · unfold handle_delete
    rw [if_neg (by omega)]
  · rw [List.getElem?_eq_getElem hb, List.getD_eq_getElem s.notes "" hb]
  · simp only [List.length_append, List.length_take, List.length_drop]
    omega
  · intro j hj
    have hlt : j < (s.notes.take (i - 1)).length := by
      simp only [List.length_take]
      omega
    rw [List.getElem?_append_left hlt, List.getElem?_take_of_lt hj]
  · intro j hj
    have hlen : (s.notes.take (i - 1)).length = i - 1 := by
      simp only [List.length_take]
      omega
    have h3 : (s.notes.take (i - 1)).length ≤ j := by rw [hlen]; exact hj
    rw [List.getElem?_append_right h3, hlen, List.getElem?_drop]
    have harith : i + (j - (i - 1)) = j + 1 := by omega
    rw [harith]
  · intro hi env
    have hlt : (s.notes.take (i - 1) ++ s.notes.drop i).length < i := by
      simp only [List.length_append, List.length_take, List.length_drop]
      omega
    unfold handle_copy
    rw [if_pos (Or.inr hlt)]

theorem C2_delete_shifts_witness :
    handle_delete ⟨["a", "b"], 100, ""⟩ 2 =
      ({ (⟨["a", "b"], 100, ""⟩ : Scratchpad) with
          notes := (⟨["a", "b"], 100, ""⟩ : Scratchpad).notes.take (2 - 1) ++
            (⟨["a", "b"], 100, ""⟩ : Scratchpad).notes.drop 2 },
       [Ev.status ("Deleted: \x27" ++
          delete_preview ((⟨["a", "b"], 100, ""⟩ : Scratchpad).notes.getD (2 - 1) "") ++ "\x27")]) ∧
    handle_copy env0
        { (⟨["a", "b"], 100, ""⟩ : Scratchpad) with
          notes := (⟨["a", "b"], 100, ""⟩ : Scratchpad).notes.take (2 - 1) ++
            (⟨["a", "b"], 100, ""⟩ : Scratchpad).notes.drop 2 } 2 =
      ({ (⟨["a", "b"], 100, ""⟩ : Scratchpad) with
          notes := (⟨["a", "b"], 100, ""⟩ : Scratchpad).notes.take (2 - 1) ++
            (⟨["a", "b"], 100, ""⟩ : Scratchpad).notes.drop 2 },
       [Ev.error "Invalid note number"]) :=
  ⟨(C2_delete_shifts ⟨["a", "b"], 100, ""⟩ 2 (by decide) (by decide)).1,
   (C2_delete_shifts ⟨["a", "b"], 100, ""⟩ 2 (by decide) (by decide)).2.2.2.2.2 (by decide) env0⟩

/-- C4: `search` returns exactly the pairs `(i, note)` such that the
lowercased query is a substring of the lowercased note at 1-based
position `i`, in ascending order of `i`; `search("HELLO")` matches a
note containing "Hello world"; and a nonempty query matching no note
yields the distinct no-matches outcome, not the empty-query error. -/
theorem C4_search :
    (∀ (notes : List String) (q : String) (j : Nat) (n : String),
        (j, n) ∈ searchMatches notes q ↔
          1 ≤ j ∧ notes[j - 1]? = some n ∧
            strContains (pyLower n) (pyLower q) = true) ∧
    (∀ (notes : List String) (q : String),
        (searchMatches notes q).Pairwise (fun a b => a.1 < b.1)) ∧
    search_outcome ["Hello world"] "HELLO" =
      SearchOutcome.found "HELLO" [(1, "Hello world")] ∧
    (∀ (notes : List String) (q : String), q ≠ "" →
        searchMatches notes q = [] →
        search_outcome notes q = SearchOutcome.noMatches q ∧
        SearchOutcome.noMatches q ≠ SearchOutcome.emptyQuery) := by
  refine ⟨?_, ?_, by decide, ?_⟩
  · intro notes q j n
    rw [searchMatches, mem_searchFrom]
    constructor
    · rintro ⟨k, hk1, hk2, hk3⟩
      refine ⟨by omega, ?_, hk3⟩
      have hk : j - 1 = k := by omega
      rw [hk]
      exact hk1
    · rintro ⟨h1, h2, h3⟩
      exact ⟨j - 1, h2, by omega, h3⟩
  · intro notes q
    exact searchFrom_pairwise q notes 0
  · intro notes q hq hempty
    refine ⟨?_, by simp⟩
    unfold search_outcome
    rw [if_neg hq]
    simp [hempty]

theorem C4_search_witness :
    search_outcome [] "z" = SearchOutcome.noMatches "z" ∧
      SearchOutcome.noMatches "z" ≠ SearchOutcome.emptyQuery :=
  C4_search.2.2.2 [] "z" (by decide) rfl

theorem pySplit1_token_rest (t r : List Char)
    (ht : t ≠ []) (hall : ∀ x ∈ t, isPySpace x = false)
    (hr : r ≠ []) (hhead : ∀ c ∈ r.take 1, isPySpace c = false) :
    pySplit1 (t ++ ' ' :: r) = [t, r] := by
  obtain ⟨c, cs, hct⟩ := List.exists_cons_of_ne_nil ht
  obtain ⟨c2, cs2, hcr⟩ := List.exists_cons_of_ne_nil hr
  have hc : isPySpace c = false := hall c (by rw [hct]; exact List.mem_cons_self c cs)
  have hc2 : isPySpace c2 = false := hhead c2 (by rw [hcr]; simp)
  have hdw : (t ++ ' ' :: r).dropWhile isPySpace = t ++ ' ' :: r := by
    rw [hct, List.cons_append]
    exact dropWhile_cons_false hc
  have hnotall : ∀ x ∈ t, (fun c => !isPySpace c) x = true := by
    intro x hx
    simp [hall x hx]
  have hspf : (fun c => !isPySpace c) ' ' = false := by decide
  have htW : (t ++ ' ' :: r).takeWhile (fun c => !isPySpace c) = t :=
    takeWhile_append_stop t r hnotall hspf
  have hdW2 : (t ++ ' ' :: r).dropWhile (fun c => !isPySpace c) = ' ' :: r :=
    dropWhile_append_stop t r hnotall hspf
  have hdW3 : (' ' :: r).dropWhile isPySpace = r := by
    rw [List.dropWhile_cons]
    rw [if_pos (by decide)]
    rw [hcr]
    exact dropWhile_cons_false hc2
  unfold pySplit1
  rw [hdw, hdW2, hdW3, htW]
  rw [if_neg (by simp [hct]), if_neg (by simp [hcr])]

/-- C6 (amended): `parse_command` does split a line at the first
whitespace boundary into a lowercased command token and the raw argument
remainder (internal casing and whitespace preserved); but the session
loop dispatches by case-sensitive literal prefix matching and never
calls `parse_command`, so the dispatch of "ADD hello" is NOT the same as
that of "add hello": the former is reported as an unknown command while
the latter appends the note "hello". -/
theorem C6_parse_lowercases_but_dispatch_is_case_sensitive :
    (∀ (t r : String), t.data ≠ [] → (∀ c ∈ t.data, isPySpace c = false) →
        r.data ≠ [] → (∀ c ∈ r.data.take 1, isPySpace c = false) →
        parse_command (t ++ " " ++ r) = some (pyLower t, r)) ∧
    stepCommand env0 pad100 "ADD hello" =
      some (LoopResult.next pad100
        [Ev.error "Unknown command. Type \x27help\x27 for available commands"]) ∧
    (∃ (s' : Scratchpad) (evs : List Ev),
        stepCommand env0 pad100 "add hello" = some (LoopResult.next s' evs) ∧
        s'.notes = ["hello"]) := by
  refine ⟨?_, by decide, ⟨_, _, rfl, by decide⟩⟩
  intro t r ht hall hr hhead
  have hsp : (" " : String).data = [' '] := rfl
  have hdata : (t ++ " " ++ r).data = t.data ++ ' ' :: r.data := by
    simp [hsp]
  have hne : ¬(t ++ " " ++ r = "") := by
    intro he
    have h0 := hdata
    rw [he] at h0
    obtain ⟨c, cs, hct⟩ := List.exists_cons_of_ne_nil ht
    simp [hct] at h0
  unfold parse_command
  rw [if_neg hne, hdata, pySplit1_token_rest t.data r.data ht hall hr hhead]

theorem C6_witness :
    parse_command ("add" ++ " " ++ "Hello  World") =
      some (pyLower "add", "Hello  World") :=
  C6_parse_lowercases_but_dispatch_is_case_sensitive.1 "add" "Hello  World"
    (by decide) (by decide) (by decide) (by decide)

/-- C6 counterexample: dispatching the line "ADD hello" is not the same
as dispatching "add hello" — the loop matches command words
case-sensitively, so the claimed dispatch equivalence fails. -/
theorem C6_case_sensitivity_counterexample :
    step_line env0 pad100 "ADD hello" ≠ step_line env0 pad100 "add hello" := by
  decide

theorem log_history_suffix (env : Env) (s : Scratchpad) (t : String) :
    ∃ suf, (log_to_history env s t).1.history = s.history ++ suf := by
  cases h : env.histOk
  · exact ⟨"", by rw [log_to_history_of_fail _ _ _ h]; simp⟩
  · exact ⟨history_line env.now t, by rw [log_to_history_of_ok _ _ _ h]⟩

theorem handle_add_history_suffix (env : Env) (s : Scratchpad) (text : String)
    (s' : Scratchpad) (evs : List Ev)
    (h : handle_add env s text = some (s', evs)) :
    ∃ suf, s'.history = s.history ++ suf := by
  unfold handle_add at h
  split at h
  · simp only [Option.some.injEq, Prod.mk.injEq] at h
    obtain ⟨h1, _⟩ := h
    subst h1
    exact ⟨"", by simp⟩
  · split at h
    · split at h
      · exact absurd h (by simp)
      · rename_i a rest heq
        simp only [Option.some.injEq, Prod.mk.injEq] at h
        obtain ⟨h1, _⟩ := h
        subst h1
        exact log_history_suffix env _ text
    · simp only [Option.some.injEq, Prod.mk.injEq] at h
      obtain ⟨h1, _⟩ := h
      subst h1
      exact log_history_suffix env _ text

theorem handle_copy_fst (env : Env) (s : Scratchpad) (n : Nat) :
    (handle_copy env s n).1 = s := by
  unfold handle_copy
  split <;> rfl

theorem handle_copy_all_fst (env : Env) (s : Scratchpad) :
    (handle_copy_all env s).1 = s := by
  unfold handle_copy_all
  split <;> rfl

theorem handle_search_fst (s : Scratchpad) (q : String) :
    (handle_search s q).1 = s := by
  unfold handle_search
  cases search_outcome s.notes q <;> rfl

theorem handle_delete_history (s : Scratchpad) (n : Nat) :
    (handle_delete s n).1.history = s.history := by
  unfold handle_delete
  split <;> rfl

theorem handle_delete_all_history (s : Scratchpad) :
    (handle_delete_all s).1.history = s.history := by
  unfold handle_delete_all
  split <;> rfl

/-- A concrete environment whose clipboard library is unavailable. -/
def envNoClip : Env := ⟨true, false, true, ts0⟩

/-- C8: history-write and clipboard failures never abort the triggering
command: (1) an accepted add with a failing history write still appends
the note to the in-memory store (it becomes the last note), leaves the
history file as it was, and reports the failure as a message while the
handler returns normally; (2) a copy whose clipboard is unavailable or
failing still produces the copied note's text (as the printed fallback)
and leaves the session state intact. -/
theorem C8_side_channel_failures :
    (∀ (env : Env) (s : Scratchpad) (text : String),
        text ≠ "" → 0 < s.maxNotes → env.histOk = false →
        ∃ (s' : Scratchpad) (evs : List Ev),
          handle_add env s text = some (s', evs) ∧
          s'.notes.getLast? = some text ∧
          s'.history = s.history ∧
          Ev.error "Failed to write to history" ∈ evs) ∧
    (∀ (env : Env) (s : Scratchpad) (i : Nat),
        (env.clipAvail = false ∨ env.clipOk = false) →
        1 ≤ i → i ≤ s.notes.length →
        (handle_copy env s i).1 = s ∧
        Ev.textFallback (s.notes.getD (i - 1) "") ∈ (handle_copy env s i).2) := by
  constructor
  · intro env s text ht hpos hhist
    unfold handle_add
    rw [if_neg ht]
    by_cases hfull : s.maxNotes ≤ s.notes.length
    · rw [if_pos hfull]
      cases hn : s.notes with
      | nil =>
        rw [hn] at hfull
        simp at hfull
        omega
      | cons a rest =>
        refine ⟨_, _, rfl, ?_, ?_, ?_⟩
        · rw [log_to_history_notes]
          exact List.getLast?_concat _
        · rw [log_to_history_of_fail _ _ _ hhist]
        · rw [log_to_history_of_fail _ _ _ hhist]
          simp
    · rw [if_neg hfull]
      refine ⟨_, _, rfl, ?_, ?_, ?_⟩
      · rw [log_to_history_notes]
        exact List.getLast?_concat _
      · rw [log_to_history_of_fail _ _ _ hhist]
      · rw [log_to_history_of_fail _ _ _ hhist]
        simp
  · intro env s i hclip h1 h2
    have hnb : ¬(i < 1 ∨ s.notes.length < i) := by omega
    have hnb2 : ¬(i = 0 ∨ s.notes.length < i) := by omega
    rcases hclip with hc | hc
    · constructor <;> simp [handle_copy, safe_clipboard_copy, hnb, hnb2, hc]
    · by_cases ha : env.clipAvail = false
      · constructor <;> simp [handle_copy, safe_clipboard_copy, hnb, hnb2, ha]
      · constructor <;> simp [handle_copy, safe_clipboard_copy, hnb, hnb2, ha, hc]

theorem C8_side_channel_failures_witness :
    (∃ (s' : Scratchpad) (evs : List Ev),
        handle_add envHistFail pad100 "hi" = some (s', evs) ∧
        s'.notes.getLast? = some "hi" ∧
        s'.history = pad100.history ∧
        Ev.error "Failed to write to history" ∈ evs) ∧
    ((handle_copy envNoClip padA 1).1 = padA ∧
      Ev.textFallback (padA.notes.getD (1 - 1) "") ∈ (handle_copy envNoClip padA 1).2) :=
  ⟨C8_side_channel_failures.1 envHistFail pad100 "hi" (by decide) (by decide) rfl,
   C8_side_channel_failures.2 envNoClip padA 1 (Or.inl rfl) (by decide) (by decide)⟩

/-- C9: the history file is append-only and is modified only by accepted
adds: (1) it is created with the literal header line followed by a blank
line when absent, and existing content is never rewritten; (2) every
store operation only ever appends to the history content; (3) an
accepted add with a working history file appends exactly the one
timestamped line `- [Y-m-d H:M:S] <text>`; (4) copy, copy_all, delete,
delete_all and search leave the history content exactly unchanged. -/
theorem C9_history_append_only :
    (init_history none = "# Scratchpad History\n\n" ∧
      ∀ c, init_history (some c) = c) ∧
    (∀ (env : Env) (s : Scratchpad) (op : Op) (r : Scratchpad) (evs : List Ev),
        apply_op env s op = some (r, evs) →
        ∃ suf, r.history = s.history ++ suf) ∧
    (∀ (env : Env) (s : Scratchpad) (text : String) (r : Scratchpad) (evs : List Ev),
        env.histOk = true → text ≠ "" →
        apply_op env s (Op.add text) = some (r, evs) →
        r.history = s.history ++ history_line env.now text) ∧
    (∀ (env : Env) (s : Scratchpad) (op : Op) (r : Scratchpad) (evs : List Ev),
        (∀ t, op ≠ Op.add t) →
        apply_op env s op = some (r, evs) →
        r.history = s.history) := by
  refine ⟨⟨rfl, fun c => rfl⟩, ?_, ?_, ?_⟩
  · intro env s op r evs h
    cases op with
    | add t => exact handle_add_history_suffix env s t r evs h
    | copy n =>
      simp only [apply_op, Option.some.injEq] at h
      have hr : (handle_copy env s n).1 = r := by rw [h]
      rw [← hr, handle_copy_fst]
      exact ⟨"", by simp⟩
    | copyAll =>
      simp only [apply_op, Option.some.injEq] at h
      have hr : (handle_copy_all env s).1 = r := by rw [h]
      rw [← hr, handle_copy_all_fst]
      exact ⟨"", by simp⟩
    | delete n =>
      simp only [apply_op, Option.some.injEq] at h
      have hr : (handle_delete s n).1 = r := by rw [h]
      rw [← hr, handle_delete_history]
      exact ⟨"", by simp⟩
    | deleteAll =>
      simp only [apply_op, Option.some.injEq] at h
      have hr : (handle_delete_all s).1 = r := by rw [h]
      rw [← hr, handle_delete_all_history]
      exact ⟨"", by simp⟩
    | search q =>
      simp only [apply_op, Option.some.injEq] at h
      have hr : (handle_search s q).1 = r := by rw [h]
      rw [← hr, handle_search_fst]
      exact ⟨"", by simp⟩
  · intro env s text r evs hok ht h
    simp only [apply_op] at h
    unfold handle_add at h
    rw [if_neg ht] at h
    split at h
    · split at h
      · exact absurd h (by simp)
      · rename_i a rest heq
        simp only [Option.some.injEq, Prod.mk.injEq] at h
        obtain ⟨h1, _⟩ := h
        subst h1
        rw [log_to_history_of_ok _ _ _ hok]
    · simp only [Option.some.injEq, Prod.mk.injEq] at h
      obtain ⟨h1, _⟩ := h
      subst h1
      rw [log_to_history_of_ok _ _ _ hok]
  · intro env s op r evs hne h
    cases op with
    | add t => exact absurd rfl (hne t)
    | copy n =>
      simp only [apply_op, Option.some.injEq] at h
      have hr : (handle_copy env s n).1 = r := by rw [h]
      rw [← hr, handle_copy_fst]
    | copyAll =>
      simp only [apply_op, Option.some.injEq] at h
      have hr : (handle_copy_all env s).1 = r := by rw [h]
      rw [← hr, handle_copy_all_fst]
    | delete n =>
      simp only [apply_op, Option.some.injEq] at h
      have hr : (handle_delete s n).1 = r := by rw [h]
      rw [← hr, handle_delete_history]
    | deleteAll =>
      simp only [apply_op, Option.some.injEq] at h
      have hr : (handle_delete_all s).1 = r := by rw [h]
      rw [← hr, handle_delete_all_history]
    | search q =>
      simp only [apply_op, Option.some.injEq] at h
      have hr : (handle_search s q).1 = r := by rw [h]
      rw [← hr, handle_search_fst]

theorem C9_history_append_only_witness :
    (⟨["hi"], 100, "- [2024-01-02 03:04:05] hi\n"⟩ : Scratchpad).history =
        pad100.history ++ history_line env0.now "hi" ∧
      (⟨["a"], 100, ""⟩ : Scratchpad).history = padA.history :=
  ⟨C9_history_append_only.2.2.1 env0 pad100 "hi"
      ⟨["hi"], 100, "- [2024-01-02 03:04:05] hi\n"⟩ [Ev.status "Added note #1"]
      rfl (by decide) (by decide),
   C9_history_append_only.2.2.2 env0 padA (Op.delete 2) ⟨["a"], 100, ""⟩
      [Ev.error "Invalid note number"] (fun t => by simp) (by decide)⟩

/-- C3: the `add` operation (argument trim of the dispatch arm followed by
`handle_add`) rejects empty and whitespace-only text with the empty-input
error, returning the whole state — note store and history file content —
exactly as it was: no note appended, no eviction, no history line. -/
theorem C3_empty_add_rejected (env : Env) (s : Scratchpad) (raw : String)
    (h : pyStrip raw = "") :
    add_op env s raw = some (s, [Ev.error "Cannot add empty text"]) := by
  unfold add_op
  rw [h]
  unfold handle_add
  rw [if_pos rfl]

theorem C3_empty_add_rejected_witness :
    pyStrip "   " = "" ∧
      add_op env0 pad100 "   " = some (pad100, [Ev.error "Cannot add empty text"]) :=
  ⟨by decide, C3_empty_add_rejected env0 pad100 "   " (by decide)⟩

/-- C5: `handle_copy_all` fails with the empty-store error exactly when
the store is empty; on a nonempty store the state is unchanged, no
empty-store error occurs, and the newline-joined 1-based numbered
rendering of the notes is the text handed to the clipboard (or printed as
the fallback); on the store `["a", "b"]` that text is `"1. a\n2. b"`. -/
theorem C5_copy_all (env : Env) (s : Scratchpad) :
    (s.notes = [] → handle_copy_all env s = (s, [Ev.error "Nothing to copy"])) ∧
    (s.notes ≠ [] →
      (handle_copy_all env s).1 = s ∧
      Ev.error "Nothing to copy" ∉ (handle_copy_all env s).2 ∧
      (Ev.clipSet (copy_all_text s.notes) ∈ (handle_copy_all env s).2 ∨
        Ev.textFallback (copy_all_text s.notes) ∈ (handle_copy_all env s).2)) ∧
    copy_all_text ["a", "b"] = "1. a\n2. b" := by
  have hne1 : ("Clipboard not available - install pyperclip" : String) ≠ "Nothing to copy" := by decide
  have hne2 : ("Copy failed" : String) ≠ "Nothing to copy" := by decide
  refine ⟨?_, ?_, by decide⟩
  · intro h
    unfold handle_copy_all
    rw [if_pos h]
  · intro h
    by_cases ha : env.clipAvail
    · by_cases ho : env.clipOk
      · refine ⟨?_, ?_, Or.inl ?_⟩ <;>
          simp [handle_copy_all, safe_clipboard_copy, h, ha, ho, hne1, hne2]
      · refine ⟨?_, ?_, Or.inr ?_⟩ <;>
          simp [handle_copy_all, safe_clipboard_copy, h, ha, ho, hne1, hne2]
    · refine ⟨?_, ?_, Or.inr ?_⟩ <;>
        simp [handle_copy_all, safe_clipboard_copy, h, ha, hne1, hne2]

theorem C5_copy_all_witness :
    handle_copy_all env0 ⟨[], 100, ""⟩ =
        (⟨[], 100, ""⟩, [Ev.error "Nothing to copy"]) ∧
      ((handle_copy_all env0 padA).1 = padA ∧
        Ev.error "Nothing to copy" ∉ (handle_copy_all env0 padA).2 ∧
        (Ev.clipSet (copy_all_text padA.notes) ∈ (handle_copy_all env0 padA).2 ∨
          Ev.textFallback (copy_all_text padA.notes) ∈ (handle_copy_all env0 padA).2)) :=
  ⟨(C5_copy_all env0 ⟨[], 100, ""⟩).1 rfl,
   (C5_copy_all env0 padA).2.1 (by decide)⟩

/-- C7 (amended): an argument to `copy`/`delete` whose trimmed form is not
a digit string produces the usage error and the store handler is not
invoked (the state is returned unchanged with only the usage message);
but the argument `"0"` passes the `isdigit` validation and IS forwarded
to the store handler, which rejects it with the index error — in both
cases the store is unchanged. -/
theorem C7_numeric_validation (env : Env) (s : Scratchpad) (arg : String) :
    (pyIsDigit (pyStrip arg) = false →
      copy_arm env s arg = (s, [Ev.error "Usage: copy <number>"]) ∧
      delete_arm s arg = (s, [Ev.error "Usage: delete <number>"])) ∧
    (pyStrip arg = "0" →
      copy_arm env s arg = (s, [Ev.error "Invalid note number"]) ∧
      delete_arm s arg = (s, [Ev.error "Invalid note number"])) := by
  constructor
  · intro h
    constructor <;> simp [copy_arm, delete_arm, h]
  · intro h
    have h1 : pyIsDigit (pyStrip arg) = true := by rw [h]; decide
    have h2 : parseNat (pyStrip arg) = 0 := by rw [h]; decide
    constructor
    · simp [copy_arm, h1, h2, handle_copy]
    · simp [delete_arm, h1, h2, handle_delete]

theorem C7_numeric_validation_witness :
    (copy_arm env0 padA "x" = (padA, [Ev.error "Usage: copy <number>"]) ∧
      delete_arm padA "x" = (padA, [Ev.error "Usage: delete <number>"])) ∧
    (copy_arm env0 padA "0" = (padA, [Ev.error "Invalid note number"]) ∧
      delete_arm padA "0" = (padA, [Ev.error "Invalid note number"])) :=
  ⟨(C7_numeric_validation env0 padA "x").1 (by decide),
   (C7_numeric_validation env0 padA "0").2 (by decide)⟩

/-- C7 counterexample: the input line `delete 0` does NOT produce the
usage error; the argument `"0"` passes `isdigit`, the store operation is
invoked, and it fails with the index-range error instead. -/
theorem C7_zero_counterexample :
    step_line env0 padA "delete 0" =
      some (LoopResult.next padA [Ev.error "Invalid note number"]) ∧
    Ev.error "Usage: delete <number>" ∉ [Ev.error "Invalid note number"] := by
  constructor
  · decide
  · decide

/-- C10: the query operations `copy`, `copy_all` and `search` never
mutate the scratchpad: for every environment (clipboard working or not)
and every argument (valid or invalid), the resulting state — notes,
capacity bound and history file — is exactly the input state. -/
theorem C10_queries_pure (env : Env) (s : Scratchpad) (n : Nat) (q : String) :
    (handle_copy env s n).1 = s ∧
    (handle_copy_all env s).1 = s ∧
    (handle_search s q).1 = s := by
  refine ⟨?_, ?_, ?_⟩
  · unfold handle_copy
    split <;> rfl
  · unfold handle_copy_all
    split <;> rfl
  · unfold handle_search
    cases search_outcome s.notes q <;> rfl

end Blipt
